import Mathlib

/-!
Verification of the segment/timeline data model and export pipeline of
`videocutter` (`src/python/video_cutter.py`) against its specification.

The Python code is shallowly embedded: Python `int` becomes `Int` (or `Nat`
where the quantity is a list index), Python lists become `List`, Python
`None`-able fields become `Option`, and code that signals failure by an
early return or a caught exception becomes functions returning the new
state together with an optional error, so that "state unchanged on
failure" is an actual statement about the returned state.  Floating point
arithmetic in the source (`ratio = cur_dur / float(src_dur)`, progress
percentages) is embedded with exact rationals; every property proved here
is insensitive to the difference (clamping dominates the rounded value,
identity ratios and the chosen counterexample points are far from
floating-point tie points).
-/

namespace VideoCutter

/-- Python helper `clamp(v, lo, hi) = max(lo, min(hi, v))`
(`video_cutter.py` line 100). -/
def clamp (v lo hi : Int) : Int := max lo (min hi v)

/-- The `Segment` dataclass (`video_cutter.py` lines 104-111):
a timed region `[start_ms, end_ms)` plus a free-form title. -/
structure Segment where
  start_ms : Int
  end_ms : Int
  title : String
deriving DecidableEq, Repr

/-- The method `Segment.duration_ms`, clamped to be nonnegative. -/
def Segment.duration_ms (s : Segment) : Int := max 0 (s.end_ms - s.start_ms)

/-- Embedding of the per-segment scaling step of `export_segments`
(`video_cutter.py` lines 976-984): the segment authored against
`src_dur` is rebased onto a media of duration `cur_dur` via
multiplication by the quotient, rounding to integer milliseconds,
clamping, and a final collision fix-up.  The floating-point product of
the source is embedded as an exact rational product. -/
def scale_segment (cur_dur src_dur : Int) (seg : Segment) : Segment :=
  let s0 : Int := round ((seg.start_ms : ℚ) * ((cur_dur : ℚ) / (src_dur : ℚ)))
  let e0 : Int := round ((seg.end_ms : ℚ) * ((cur_dur : ℚ) / (src_dur : ℚ)))
  let s1 : Int := clamp s0 0 (max 0 (cur_dur - 1))
  let e1 : Int := clamp e0 0 (max 0 cur_dur)
  let e2 : Int := if e1 ≤ s1 then min cur_dur (s1 + 1) else e1
  { start_ms := s1, end_ms := e2, title := seg.title }

/-- The IN/OUT marks kept on the slider (`MarkingSlider.in_ms` /
`MarkingSlider.out_ms`), `none` when the mark is unset. -/
structure Marks where
  in_ms : Option Int
  out_ms : Option Int
deriving DecidableEq, Repr

/-- Embedding of `set_in` (`video_cutter.py` lines 660-666): `t` is the
player's current position; an OUT mark at or before the new IN mark is
cleared. -/
def set_in (t : Int) (m : Marks) : Marks :=
  let o : Option Int :=
    match m.out_ms with
    | some o => if o ≤ t then none else some o
    | none => none
  { in_ms := some t, out_ms := o }

/-- Embedding of `set_out` (`video_cutter.py` lines 668-676): `t` is the
player's current position; a missing IN mark is first set to `0`, and a
position at or before the IN mark is bumped to `IN + 1`. -/
def set_out (t : Int) (m : Marks) : Marks :=
  let i : Int := match m.in_ms with | some i => i | none => 0
  let t1 : Int := if t ≤ i then i + 1 else t
  { in_ms := some i, out_ms := some t1 }

/-- Embedding of `clear_marks` (`video_cutter.py` lines 678-681). -/
def clear_marks (_m : Marks) : Marks := { in_ms := none, out_ms := none }

/-- The marks invariant: whenever both marks are set, OUT is strictly
after IN. -/
def Marks.ok (m : Marks) : Prop :=
  ∀ i o : Int, m.in_ms = some i → m.out_ms = some o → i < o

/-- The slice of window state that `add_segment_from_marks` reads and
writes: the loaded media's duration, the slider marks, and the grid of
segments. -/
structure GridState where
  duration_ms : Int
  marks : Marks
  segments : List Segment
deriving DecidableEq, Repr

/-- Failure modes of `add_segment_from_marks`, read off from its two
early-return status messages. -/
inductive AddError where
  | noVideo
  | invalidRange
deriving DecidableEq, Repr

/-- Embedding of `add_segment_from_marks` (`video_cutter.py` lines
709-728): refuse when no media is loaded, refuse when the marks are
absent or non-increasing, otherwise append the marked segment (empty
title) and clear the marks.  The state is returned in both cases, so
that the no-mutation behaviour of the failing paths is explicit. -/
def add_segment_from_marks (st : GridState) : GridState × Option AddError :=
  if st.duration_ms ≤ 0 then (st, some AddError.noVideo)
  else
    match st.marks.in_ms, st.marks.out_ms with
    | some i, some o =>
        if o ≤ i then (st, some AddError.invalidRange)
        else
          ({ st with
              segments := st.segments ++ [{ start_ms := i, end_ms := o, title := "" }],
              marks := { in_ms := none, out_ms := none } }, none)
    | _, _ => (st, some AddError.invalidRange)

/-- Embedding of `remove_selected_segment` (`video_cutter.py` lines
770-776): `idx` is the selected table row (`none` when nothing is
selected).  An absent or out-of-range index leaves the grid untouched;
a valid one deletes that row (`del self.segments[idx]`). -/
def remove_selected_segment (idx : Option Nat) (segs : List Segment) : List Segment :=
  match idx with
  | none => segs
  | some i => if i < segs.length then segs.eraseIdx i else segs

/-- Error taxonomy of the spec for removal. -/
inductive RemoveError where
  | indexOutOfRange
deriving DecidableEq, Repr

/-- Modelled from the spec: the removal behaviour the specification
claims (`remove(index)` fails with `IndexOutOfRange` if the index is
invalid), stated for comparison with the source's
`remove_selected_segment`, which instead ignores invalid indices. -/
def removeSpec (i : Nat) (segs : List Segment) : Except RemoveError (List Segment) :=
  if i < segs.length then Except.ok (segs.eraseIdx i) else Except.error RemoveError.indexOutOfRange

/-- A raw segment entry of a loaded JSON document.  `start_ms`/`end_ms`
are `none` when the key is absent or its value is not convertible by
Python's `int` (both raise inside the loop of `load_grid_from_json`);
`title` is `none` when the key is absent (`d.get("title", "")`). -/
structure RawSeg where
  start_ms : Option Int
  end_ms : Option Int
  title : Option String
deriving DecidableEq, Repr

/-- A raw timeline document.  `source_duration_ms` distinguishes an
absent key (`none`, Python defaults it to `0`) from a present but
non-integer-convertible value (`some none`, Python's `int` raises). -/
structure RawDoc where
  source_file : Option String
  source_duration_ms : Option (Option Int)
  segments : Option (List RawSeg)
deriving DecidableEq, Repr

/-- The grid-persistence slice of window state touched by
`load_grid_from_json`: the grid itself and the remembered source
duration of the last loaded document. -/
structure PersistState where
  segments : List Segment
  grid_source_duration : Int
deriving DecidableEq, Repr

/-- The segment-building loop of `load_grid_from_json` (lines 815-818):
each raw entry is converted with `int(d["start_ms"])`,
`int(d["end_ms"])`, `str(d.get("title", ""))`; the first missing or
unconvertible field aborts the whole loop with an exception. -/
def loadSegs : List RawSeg → Option (List Segment)
  | [] => some []
  | r :: rs =>
    match r.start_ms, r.end_ms with
    | some s, some e =>
      (loadSegs rs).map
        (fun tl => { start_ms := s, end_ms := e, title := r.title.getD "" } :: tl)
    | _, _ => none

/-- Embedding of `load_grid_from_json` (`video_cutter.py` lines
805-825).  The Boolean is `true` on a fully successful load.  The
source builds the new segment list in a local variable, assigns it to
`self.segments`, and only then reads `source_duration_ms`; an
exception in the loop therefore leaves the state untouched, while an
unconvertible `source_duration_ms` raises after the grid was already
replaced.  Both exception paths are caught and reported as a status
message. -/
def load_grid_from_json (doc : RawDoc) (st : PersistState) : PersistState × Bool :=
  match loadSegs (doc.segments.getD []) with
  | none => (st, false)
  | some segs =>
    match doc.source_duration_ms.getD (some 0) with
    | none => ({ st with segments := segs }, false)
    | some v => ({ segments := segs, grid_source_duration := v }, true)

/-- Embedding of the document construction of `save_grid_to_json`
(`video_cutter.py` lines 783-797): an empty grid is refused with a
status message and no document is produced; otherwise the document
carries the source path, the current media duration and the segment
dictionaries (`asdict`). -/
def save_grid_to_json (segs : List Segment) (source_file : Option String)
    (duration_ms : Int) : Option RawDoc :=
  if segs.isEmpty then none
  else
    some
      { source_file := source_file
        source_duration_ms := some (some duration_ms)
        segments :=
          some (segs.map (fun s =>
            { start_ms := some s.start_ms, end_ms := some s.end_ms,
              title := some s.title })) }

/-- Three-digit zero padding, as produced by Python's fixed-point
formatting of the fractional part. -/
def pad3 (n : Nat) : String :=
  if n < 10 then "00" ++ toString n
  else if n < 100 then "0" ++ toString n
  else toString n

/-- Millisecond count rendered as seconds with exactly three decimal
places.  The source computes `f"{ms/1000.0:.3f}"`; for the millisecond
magnitudes involved the float quotient rounds back exactly, so the
embedding formats the exact value. -/
def fmt3 (ms : Nat) : String := toString (ms / 1000) ++ "." ++ pad3 (ms % 1000)

/-- Embedding of `_ffmpeg_cmd` (`video_cutter.py` lines 846-865),
parameterised over the two checkbox policies.  The time arguments are
kept in milliseconds; the source passes `in_ms / 1000.0` and
`duration_ms / 1000.0` and formats them with three decimals, which
`fmt3` reproduces exactly. -/
def ffmpeg_cmd (use_cuda use_h265 : Bool) (in_ms duration_ms : Nat)
    (input_path out_path : String) : List String :=
  ["ffmpeg", "-y", "-hide_banner", "-loglevel", "info"]
    ++ (if use_cuda then ["-hwaccel", "cuda"] else [])
    ++ ["-ss", fmt3 in_ms, "-t", fmt3 duration_ms, "-i", input_path]
    ++ (if use_h265 then
          if use_cuda then ["-c:v", "hevc_nvenc", "-preset", "medium", "-c:a", "copy"]
          else ["-c:v", "libx265", "-crf", "23", "-preset", "medium", "-c:a", "copy"]
        else ["-c", "copy"])
    ++ [out_path]

/-- The command planned for a clip from `start_ms` to `end_ms`, as built
by the export paths (`video_cutter.py` lines 938-939 and 986-992):
seek to the start and cut for the difference. -/
def plan_cmd (use_cuda use_h265 : Bool) (start_ms end_ms : Nat)
    (input_path out_path : String) : List String :=
  ffmpeg_cmd use_cuda use_h265 start_ms (end_ms - start_ms) input_path out_path

/-- Longest digit prefix of a character list, read as a number, together
with the rest; `none` when the list does not start with a digit.  This
is the behaviour of one greedy regex group of digits. -/
def readNat (cs : List Char) : Option (Nat × List Char) :=
  let ds := cs.takeWhile Char.isDigit
  if ds.isEmpty then none
  else some (ds.foldl (fun a c => a * 10 + (c.toNat - 48)) 0, cs.dropWhile Char.isDigit)

/-- Attempt to match the regex `time=(\d+):(\d+):(\d+)\.(\d+)` at the
head of the character list, returning the four groups. -/
def matchTimeAt (cs : List Char) : Option (Nat × Nat × Nat × Nat) :=
  match cs with
  | 't' :: 'i' :: 'm' :: 'e' :: '=' :: rest =>
    match readNat rest with
    | some (h, ':' :: r1) =>
      match readNat r1 with
      | some (mi, ':' :: r2) =>
        match readNat r2 with
        | some (s, '.' :: r3) =>
          match readNat r3 with
          | some (f, _) => some (h, mi, s, f)
          | none => none
        | _ => none
      | _ => none
    | _ => none
  | _ => none

/-- Leftmost match of `time=(\d+):(\d+):(\d+)\.(\d+)` in a character
list, the semantics of `re.search` with that pattern. -/
def searchTime : List Char → Option (Nat × Nat × Nat × Nat)
  | [] => none
  | c :: cs =>
    match matchTimeAt (c :: cs) with
    | some r => some r
    | none => searchTime cs

/-- Embedding of the per-line progress computation of
`_run_ffmpeg_with_progress` (`video_cutter.py` lines 876-886): search
the timestamp pattern, read the elapsed seconds as
`h*3600 + m*60 + s + frac/100`, divide by the guarded total
`max(0.001, total_seconds)`, scale to a percentage, clamp into
`[0, 100]` and truncate with Python's `int`.  A line without a match
yields no progress event (`none`). -/
def progress_percent (line : String) (total_seconds : ℚ) : Option Int :=
  match searchTime line.data with
  | none => none
  | some (h, mi, s, f) =>
    let total : ℚ := max (1 / 1000) total_seconds
    let elapsed : ℚ := (h : ℚ) * 3600 + (mi : ℚ) * 60 + (s : ℚ) + (f : ℚ) / 100
    some ⌊min 100 (max 0 (elapsed / total * 100))⌋

/-- Modelled from the spec: the percentage formula the specification
states, with rounding to the nearest integer instead of the source's
truncation, for comparison with `progress_percent`. -/
def percentSpec (h mi s f : Nat) (total_seconds : ℚ) : Int :=
  clamp (round (((h : ℚ) * 3600 + (mi : ℚ) * 60 + (s : ℚ) + (f : ℚ) / 100)
    / total_seconds * 100)) 0 100

/-- Observable events of a batch export: the coordinator launching job
`j`, and job `j`'s external process reaching its terminal state (with
`ok` recording success or failure of the transcode). -/
inductive BEvent where
  | launch (j : Nat)
  | finish (j : Nat) (ok : Bool)
deriving DecidableEq, Repr

/-- State of one batch: how many jobs the coordinator's loop has already
launched, which launched jobs are still running, and which have
finished. -/
structure BatchSt where
  next : Nat
  running : List Nat
  done : List Nat
deriving DecidableEq, Repr

/-- Initial batch state: nothing launched. -/
def BatchSt.init : BatchSt := { next := 0, running := [], done := [] }

/-- One step of a batch export of `total` jobs, read off the source:
the loop body of `export_segments` (lines 973-993) calls
`_run_ffmpeg_with_progress`, which starts a `QProcess` and returns
without waiting (lines 867-900 contain no `waitForFinished`), so the
coordinator may always launch the next job while earlier processes are
still running; independently, any running external process may reach
its terminal state at any time, successfully or not, and nothing in the
code makes a launch wait on, or be disabled by, an earlier finish. -/
inductive BStep (total : Nat) : BatchSt → BEvent → BatchSt → Prop
  | launch {st : BatchSt} (h : st.next < total) :
      BStep total st (BEvent.launch st.next)
        { next := st.next + 1, running := st.running ++ [st.next], done := st.done }
  | finish {st : BatchSt} {j : Nat} (ok : Bool) (h : j ∈ st.running) :
      BStep total st (BEvent.finish j ok)
        { next := st.next, running := st.running.erase j, done := j :: st.done }

/-- Executions of a batch: reflexive-transitive closure of `BStep`,
accumulating the event trace. -/
inductive BExec (total : Nat) : BatchSt → List BEvent → BatchSt → Prop
  | nil {st : BatchSt} : BExec total st [] st
  | cons {st st' st'' : BatchSt} {e : BEvent} {tr : List BEvent} :
      BStep total st e st' → BExec total st' tr st'' → BExec total st (e :: tr) st''

/-- The indices of the launch events of a trace, in trace order. -/
def launches (tr : List BEvent) : List Nat :=
  tr.filterMap (fun e => match e with | BEvent.launch j => some j | _ => none)

/-- C1: Scaling safety.  For every segment and every new duration
`cur_dur ≥ 1` with a positive reference duration `src_dur`, the scaling
step of `export_segments` (multiply by the duration quotient, round,
clamp `start_ms` into `[0, cur_dur - 1]` and `end_ms` into
`[0, cur_dur]`, and force `end_ms = min(cur_dur, start_ms + 1)` when
the clamped bounds collide) yields a segment with
`0 ≤ start_ms < end_ms ≤ cur_dur` and an unchanged title. -/
theorem scale_segment_safe (cur_dur src_dur : Int) (seg : Segment)
    (hcur : 1 ≤ cur_dur) (hsrc : 0 < src_dur) :
    0 ≤ (scale_segment cur_dur src_dur seg).start_ms ∧
      (scale_segment cur_dur src_dur seg).start_ms
        < (scale_segment cur_dur src_dur seg).end_ms ∧
      (scale_segment cur_dur src_dur seg).end_ms ≤ cur_dur ∧
      (scale_segment cur_dur src_dur seg).title = seg.title := by
  have h := hsrc
  simp only [scale_segment, clamp]
  generalize round ((seg.start_ms : ℚ) * ((cur_dur : ℚ) / (src_dur : ℚ))) = a
  generalize round ((seg.end_ms : ℚ) * ((cur_dur : ℚ) / (src_dur : ℚ))) = b
  refine ⟨by omega, ?_, ?_, trivial⟩ <;> split <;> omega

/-- Witness for `scale_segment_safe` at the concrete rebasing
`120000 / 60000` of the segment `[1000, 3000)`. -/
theorem scale_segment_safe_witness :
    (1 : Int) ≤ 120000 ∧ (0 : Int) < 60000 ∧
      0 ≤ (scale_segment 120000 60000
            { start_ms := 1000, end_ms := 3000, title := "a" }).start_ms ∧
      (scale_segment 120000 60000
            { start_ms := 1000, end_ms := 3000, title := "a" }).start_ms
        < (scale_segment 120000 60000
            { start_ms := 1000, end_ms := 3000, title := "a" }).end_ms ∧
      (scale_segment 120000 60000
            { start_ms := 1000, end_ms := 3000, title := "a" }).end_ms ≤ 120000 ∧
      (scale_segment 120000 60000
            { start_ms := 1000, end_ms := 3000, title := "a" }).title = "a" := by
  have h := scale_segment_safe 120000 60000
    { start_ms := 1000, end_ms := 3000, title := "a" } (by norm_num) (by norm_num)
  exact ⟨by norm_num, by norm_num, h.1, h.2.1, h.2.2.1, h.2.2.2⟩

/-- C9 counterexample: identity scaling is not the identity on segments
whose times exceed the duration.  At `D = 1000`, the segment
`[2000, 3000)` is clamped: its rebased `start_ms` is `999`, not
`2000`. -/
theorem scale_segment_identity_cex :
    (scale_segment 1000 1000
        { start_ms := 2000, end_ms := 3000, title := "" }).start_ms = 999 ∧
      (999 : Int) ≠ 2000 := by
  constructor
  · simp [scale_segment, clamp]
  · decide

/-- C9 (amended): identity scaling fixes every segment that satisfies
the Segment invariant and already lies within the duration `D`: for
`D > 0`, `0 ≤ start_ms ≤ D - 1` and `start_ms < end_ms ≤ D`, the
scaling step of `export_segments` with `cur_dur = src_dur = D` returns
the segment unchanged. -/
theorem scale_segment_identity (D : Int) (seg : Segment) (hD : 0 < D)
    (h0 : 0 ≤ seg.start_ms) (h1 : seg.start_ms ≤ D - 1)
    (h2 : seg.start_ms < seg.end_ms) (h3 : seg.end_ms ≤ D) :
    scale_segment D D seg = seg := by
  have hQ : (D : ℚ) ≠ 0 := Int.cast_ne_zero.mpr (by omega)
  have hone : (D : ℚ) / (D : ℚ) = 1 := div_self hQ
  obtain ⟨s, e, t⟩ := seg
  simp only [scale_segment, hone, mul_one, round_intCast, clamp]
  simp only at h0 h1 h2 h3
  have hs : max 0 (min (max 0 (D - 1)) s) = s := by omega
  have he : max 0 (min (max 0 D) e) = e := by omega
  rw [hs, he, if_neg (by omega)]

/-- Witness for `scale_segment_identity` at `D = 60000` and the segment
`[1000, 3000)`. -/
theorem scale_segment_identity_witness :
    (0 : Int) < 60000 ∧
      scale_segment 60000 60000 { start_ms := 1000, end_ms := 3000, title := "a" }
        = { start_ms := 1000, end_ms := 3000, title := "a" } := by
  refine ⟨by norm_num, scale_segment_identity 60000 _ (by norm_num) (by norm_num)
    (by norm_num) (by norm_num) (by norm_num)⟩

/-- C7: a rejected add leaves the timeline unchanged.  With a media
loaded, marks `IN = i`, `OUT = o` and `o ≤ i`, `add_segment_from_marks`
fails with the invalid-range rejection and returns the state exactly as
it was: same segment list (same count, contents and order), no partial
append. -/
theorem add_segment_invalid_range (st : GridState) (i o : Int)
    (hdur : 0 < st.duration_ms) (hi : st.marks.in_ms = some i)
    (ho : st.marks.out_ms = some o) (hle : o ≤ i) :
    add_segment_from_marks st = (st, some AddError.invalidRange) := by
  simp only [add_segment_from_marks, hi, ho]
  rw [if_neg (by omega), if_pos hle]

/-- Witness for `add_segment_invalid_range`: a loaded video of 10000 ms,
marks `IN = 7`, `OUT = 3`, one existing segment. -/
theorem add_segment_invalid_range_witness :
    add_segment_from_marks { duration_ms := 10000, marks := { in_ms := some 7, out_ms := some 3 }, segments := [{ start_ms := 0, end_ms := 5, title := "x" }] }
      = ({ duration_ms := 10000, marks := { in_ms := some 7, out_ms := some 3 }, segments := [{ start_ms := 0, end_ms := 5, title := "x" }] }, some AddError.invalidRange) :=
  add_segment_invalid_range _ 7 3 (by norm_num) rfl rfl (by norm_num)

/-- C8 counterexample: removal at an out-of-range index does not fail.
With one segment in the grid and index `5`, `remove_selected_segment`
silently returns the grid unchanged, while the spec's removal
(`removeSpec`) would fail with `IndexOutOfRange`. -/
theorem remove_out_of_range_cex :
    remove_selected_segment (some 5) [{ start_ms := 0, end_ms := 5, title := "" }]
        = [{ start_ms := 0, end_ms := 5, title := "" }] ∧
      removeSpec 5 [{ start_ms := 0, end_ms := 5, title := "" }]
        = Except.error RemoveError.indexOutOfRange :=
  ⟨rfl, rfl⟩

/-- C8 (amended): removal behaviour of `remove_selected_segment`.  An
absent selection or an out-of-range index leaves the grid exactly as it
was (a silent no-op, not an `IndexOutOfRange` failure), and a valid
index deletes exactly that segment, keeping every other segment in its
relative order (`take i ++ drop (i+1)`). -/
theorem remove_selected_segment_behaviour :
    (∀ segs : List Segment, remove_selected_segment none segs = segs) ∧
      (∀ (segs : List Segment) (i : Nat), segs.length ≤ i →
        remove_selected_segment (some i) segs = segs) ∧
      (∀ (segs : List Segment) (i : Nat), i < segs.length →
        remove_selected_segment (some i) segs = segs.take i ++ segs.drop (i + 1)) := by
  refine ⟨fun segs => rfl, ?_, ?_⟩
  · intro segs i h
    simp only [remove_selected_segment]
    rw [if_neg (by omega)]
  · intro segs i h
    simp only [remove_selected_segment]
    rw [if_pos h, List.eraseIdx_eq_take_drop_succ]

/-- Witness for `remove_selected_segment_behaviour`: removing index 1
from a three-segment grid keeps segments 0 and 2 in order. -/
theorem remove_selected_segment_behaviour_witness :
    remove_selected_segment (some 1)
        [{ start_ms := 0, end_ms := 1, title := "a" },
          { start_ms := 1, end_ms := 2, title := "b" },
          { start_ms := 2, end_ms := 3, title := "c" }]
      = [{ start_ms := 0, end_ms := 1, title := "a" },
          { start_ms := 2, end_ms := 3, title := "c" }] := by
  have h := remove_selected_segment_behaviour.2.2
    [{ start_ms := 0, end_ms := 1, title := "a" },
      { start_ms := 1, end_ms := 2, title := "b" },
      { start_ms := 2, end_ms := 3, title := "c" }] 1 (by norm_num)
  simpa using h

/-- C10: the mark-setting invariant.  After every `set_out` both marks
are set with `OUT > IN` (a missing IN is first set to `0`, a position
at or before IN is bumped to `IN + 1`); after every `set_in` the marks
satisfy the invariant (an OUT at or before the new IN is cleared); and
a successful `add_segment_from_marks` appends exactly one segment whose
`end_ms` is strictly greater than its `start_ms`. -/
theorem marks_invariant :
    (∀ (m : Marks) (t : Int), ∃ i o : Int,
        (set_out t m).in_ms = some i ∧ (set_out t m).out_ms = some o ∧ i < o) ∧
      (∀ (m : Marks) (t : Int), Marks.ok (set_in t m)) ∧
      (∀ st st' : GridState, add_segment_from_marks st = (st', none) →
        ∃ i o : Int, i < o ∧
          st'.segments = st.segments ++ [{ start_ms := i, end_ms := o, title := "" }]) := by
  refine ⟨?_, ?_, ?_⟩
  · intro m t
    simp only [set_out]
    refine ⟨_, _, rfl, rfl, ?_⟩
    split <;> omega
  · intro m t i o hi ho
    simp only [set_in] at hi ho
    cases hm : m.out_ms with
    | none => simp only [hm] at ho; exact Option.noConfusion ho
    | some o' =>
      simp only [hm] at ho
      split at ho
      · exact absurd ho (by simp)
      · cases hi; cases ho; omega
  · intro st st' h
    unfold add_segment_from_marks at h
    split at h
    · exact absurd (congrArg Prod.snd h) (by simp)
    · cases hin : st.marks.in_ms with
      | none =>
        simp only [hin] at h
        exact absurd (congrArg Prod.snd h) (by simp)
      | some i =>
        cases hout : st.marks.out_ms with
        | none =>
          simp only [hin, hout] at h
          exact absurd (congrArg Prod.snd h) (by simp)
        | some o =>
          simp only [hin, hout] at h
          split at h
          · exact absurd (congrArg Prod.snd h) (by simp)
          · rename_i hoi
            rw [Prod.mk.injEq] at h
            obtain ⟨h1, -⟩ := h
            subst h1
            exact ⟨i, o, by omega, rfl⟩

/-- Witness for `marks_invariant`: committing marks `IN = 100`,
`OUT = 250` on a 10-second video appends the segment `[100, 250)`. -/
theorem marks_invariant_witness :
    ∃ i o : Int, i < o ∧
      ({ duration_ms := 10000, marks := { in_ms := none, out_ms := none }, segments := [{ start_ms := 100, end_ms := 250, title := "" }] } : GridState).segments
        = ({ duration_ms := 10000, marks := { in_ms := some 100, out_ms := some 250 }, segments := [] } : GridState).segments ++ [{ start_ms := i, end_ms := o, title := "" }] :=
  marks_invariant.2.2
    { duration_ms := 10000, marks := { in_ms := some 100, out_ms := some 250 }, segments := [] }
    { duration_ms := 10000, marks := { in_ms := none, out_ms := none }, segments := [{ start_ms := 100, end_ms := 250, title := "" }] }
    rfl

/-- Helper: the segment-building loop aborts (returns `none`) as soon
as any entry of the document has a missing or unconvertible
`start_ms`/`end_ms`, wherever in the list that entry sits. -/
theorem loadSegs_eq_none {l : List RawSeg} {r : RawSeg} (hmem : r ∈ l)
    (hbad : r.start_ms = none ∨ r.end_ms = none) : loadSegs l = none := by
  induction l with
  | nil => cases hmem
  | cons hd tl ih =>
    cases hmem with
    | head =>
      rcases hbad with hb | hb <;> simp [loadSegs, hb]
    | tail _ hmem' =>
      simp only [loadSegs]
      cases hs : hd.start_ms with
      | none => rfl
      | some s =>
        cases he : hd.end_ms with
        | none => rfl
        | some e => rw [ih hmem']; rfl

/-- Helper: a successful segment-building loop converts every entry of
the document, in order — nothing is dropped. -/
theorem loadSegs_length {l : List RawSeg} {segs : List Segment}
    (h : loadSegs l = some segs) : segs.length = l.length := by
  induction l generalizing segs with
  | nil => cases h; rfl
  | cons hd tl ih =>
    simp only [loadSegs] at h
    cases hs : hd.start_ms with
    | none => rw [hs] at h; exact Option.noConfusion h
    | some s =>
      cases he : hd.end_ms with
      | none => rw [hs, he] at h; exact Option.noConfusion h
      | some e =>
        rw [hs, he] at h
        cases htl : loadSegs tl with
        | none => rw [htl] at h; exact Option.noConfusion h
        | some tl' =>
          rw [htl] at h
          cases h
          simp [ih htl]

/-- C2 (amended): the load is atomic over the segment fields, but does
not validate the Segment invariant.  If any entry of the document has a
missing or non-integer-convertible `start_ms` or `end_ms`,
`load_grid_from_json` fails and leaves the state exactly as it was —
no partial timeline; and whenever the segment loop succeeds it converts
every document entry (no segment-dropping). -/
theorem load_grid_atomic :
    (∀ (doc : RawDoc) (st : PersistState) (r : RawSeg),
        r ∈ doc.segments.getD [] → (r.start_ms = none ∨ r.end_ms = none) →
        load_grid_from_json doc st = (st, false)) ∧
      (∀ (l : List RawSeg) (segs : List Segment),
        loadSegs l = some segs → segs.length = l.length) := by
  constructor
  · intro doc st r hmem hbad
    unfold load_grid_from_json
    rw [loadSegs_eq_none hmem hbad]
  · intro l segs h
    exact loadSegs_length h

/-- Witness for `load_grid_atomic`: a document whose single segment
lacks `end_ms` is refused and a populated grid survives untouched. -/
theorem load_grid_atomic_witness :
    load_grid_from_json { source_file := none, source_duration_ms := some (some 9), segments := some [{ start_ms := some 4, end_ms := none, title := some "t" }] } { segments := [{ start_ms := 1, end_ms := 2, title := "keep" }], grid_source_duration := 77 }
      = ({ segments := [{ start_ms := 1, end_ms := 2, title := "keep" }], grid_source_duration := 77 }, false) :=
  load_grid_atomic.1
    { source_file := none, source_duration_ms := some (some 9), segments := some [{ start_ms := some 4, end_ms := none, title := some "t" }] }
    { segments := [{ start_ms := 1, end_ms := 2, title := "keep" }], grid_source_duration := 77 }
    { start_ms := some 4, end_ms := none, title := some "t" }
    (by simp) (Or.inr rfl)

/-- C2 counterexample: a document whose only segment violates the
Segment invariant (`end_ms = 3 ≤ start_ms = 5`) is NOT rejected:
`load_grid_from_json` succeeds and installs the invalid segment in the
timeline, instead of failing with `MalformedDocument`. -/
theorem load_grid_invariant_cex :
    load_grid_from_json { source_file := none, source_duration_ms := some (some 42), segments := some [{ start_ms := some 5, end_ms := some 3, title := some "" }] } { segments := [], grid_source_duration := 0 }
      = ({ segments := [{ start_ms := 5, end_ms := 3, title := "" }], grid_source_duration := 42 }, true) := rfl

/-- Helper: loading back the raw entries written by
`save_grid_to_json` reconstructs exactly the original segments. -/
theorem loadSegs_save (segs : List Segment) :
    loadSegs (segs.map fun s =>
        ({ start_ms := some s.start_ms, end_ms := some s.end_ms,
           title := some s.title } : RawSeg)) = some segs := by
  induction segs with
  | nil => rfl
  | cons hd tl ih => simp [loadSegs, ih]

/-- C3 counterexample: the round-trip premise fails for the empty
timeline — `save_grid_to_json` refuses an empty grid ("Grid is
empty.") and produces no document at all, so no document exists whose
load could reproduce the empty timeline. -/
theorem save_grid_empty_cex : save_grid_to_json [] none 60000 = none := rfl

/-- C3 (amended): round-trip for every nonempty timeline.  For any
nonempty list of segments all satisfying the Segment invariant, any
source path and any chosen `source_duration_ms`, `save_grid_to_json`
produces a document, and loading that document from any prior state
succeeds and reproduces exactly the same ordered segments (same
`start_ms`, `end_ms`, `title`, same order) and the same
`source_duration_ms`. -/
theorem save_load_round_trip (segs : List Segment) (sf : Option String)
    (dur : Int) (st : PersistState) (hne : segs ≠ [])
    (hvalid : ∀ s ∈ segs, s.start_ms < s.end_ms) :
    ∃ doc : RawDoc, save_grid_to_json segs sf dur = some doc ∧
      load_grid_from_json doc st
        = ({ segments := segs, grid_source_duration := dur }, true) := by
  refine ⟨{ source_file := sf, source_duration_ms := some (some dur), segments := some (segs.map fun s => { start_ms := some s.start_ms, end_ms := some s.end_ms, title := some s.title }) }, ?_, ?_⟩
  · unfold save_grid_to_json
    rw [if_neg (by simpa using hne)]
  · unfold load_grid_from_json
    simp only [Option.getD_some]
    rw [loadSegs_save]

/-- Witness for `save_load_round_trip`: a two-segment grid with titles
round-trips through the document format. -/
theorem save_load_round_trip_witness :
    ∃ doc : RawDoc,
      save_grid_to_json [{ start_ms := 1000, end_ms := 3000, title := "a" }, { start_ms := 4000, end_ms := 9000, title := "b" }] (some "/tmp/in.mp4") 60000 = some doc ∧
      load_grid_from_json doc { segments := [], grid_source_duration := 0 }
        = ({ segments := [{ start_ms := 1000, end_ms := 3000, title := "a" }, { start_ms := 4000, end_ms := 9000, title := "b" }], grid_source_duration := 60000 }, true) :=
  save_load_round_trip
    [{ start_ms := 1000, end_ms := 3000, title := "a" }, { start_ms := 4000, end_ms := 9000, title := "b" }]
    (some "/tmp/in.mp4") 60000 { segments := [], grid_source_duration := 0 }
    (by simp) (by decide)

/-- C5 counterexample: the code truncates the percentage, it does not
round it.  For the line `"frame=1 time=00:01:04.87 bitrate=..."` and a
130-second job, elapsed is `64.87 s`, the exact percentage is `49.9`:
the code reports `49`, while the claim's formula
`clamp(round(elapsed / total * 100), 0, 100)` yields `50`. -/
theorem progress_round_cex :
    progress_percent "frame=1 time=00:01:04.87 bitrate=..." 130 = some 49 ∧
      percentSpec 0 1 4 87 130 = 50 := by
  constructor
  · have hsearch : searchTime ("frame=1 time=00:01:04.87 bitrate=...".data)
        = some (0, 1, 4, 87) := rfl
    unfold progress_percent
    rw [hsearch]
    norm_num
  · unfold percentSpec clamp
    rw [round_eq]
    norm_num

/-- C5 (amended): progress computation with truncation.  For every
output line in which the pattern `time=H:M:S.ff` matches with groups
`(h, mi, s, f)` and every total duration `q`, the reported percent is
the clamped and truncated value
`int(min(100, max(0, (h*3600 + mi*60 + s + f/100) / max(0.001, q) * 100)))`;
lines without a match are ignored (no progress event, never a failure);
and for the line `"frame=10 time=00:01:05.50 bitrate=..."` with a
130-second job the percent is `50`. -/
theorem progress_percent_formula :
    (∀ (line : String) (q : ℚ) (h mi s f : Nat),
        searchTime line.data = some (h, mi, s, f) →
        progress_percent line q
          = some ⌊min 100 (max 0
              (((h : ℚ) * 3600 + (mi : ℚ) * 60 + (s : ℚ) + (f : ℚ) / 100)
                / (max (1 / 1000) q) * 100))⌋) ∧
      (∀ (line : String) (q : ℚ),
        searchTime line.data = none → progress_percent line q = none) ∧
      progress_percent "frame=10 time=00:01:05.50 bitrate=..." 130 = some 50 := by
  refine ⟨?_, ?_, ?_⟩
  · intro line q h mi s f hsearch
    unfold progress_percent
    rw [hsearch]
  · intro line q hsearch
    unfold progress_percent
    rw [hsearch]
  · have hsearch : searchTime ("frame=10 time=00:01:05.50 bitrate=...".data)
        = some (0, 1, 5, 50) := rfl
    unfold progress_percent
    rw [hsearch]
    norm_num

/-- Witness for `progress_percent_formula`: the first conjunct applied
to the spec's example line, yielding the concrete truncated value. -/
theorem progress_percent_formula_witness :
    progress_percent "frame=10 time=00:01:05.50 bitrate=..." 130
      = some ⌊min 100 (max 0
          (((0 : ℚ) * 3600 + (1 : ℚ) * 60 + (5 : ℚ) + (50 : ℚ) / 100)
            / (max (1 / 1000) 130) * 100))⌋ := by
  have h := progress_percent_formula.1 "frame=10 time=00:01:05.50 bitrate=..." 130
    0 1 5 50 rfl
  simpa using h

/-- Helper: the formatted seconds string always contains a decimal
point, hence is never one of the fixed option tokens. -/
theorem fmt3_ne_hwaccel (n : Nat) : fmt3 n ≠ "-hwaccel" := by
  intro h
  have hdot : '.' ∈ (fmt3 n).data := by
    unfold fmt3
    rw [String.data_append, String.data_append]
    simp
  rw [h] at hdot
  exact absurd hdot (by decide)

/-- C6: planner policy table and command shape.  For every input and
output path (paths, so never the literal option token `"-hwaccel"`),
every valid range `start_ms < end_ms` and every policy pair, the
planned argument list contains the overwrite flag `-y`, the seek pair
`-ss` with the start seconds and the duration pair `-t` with the
difference, both formatted to exactly three decimal places; it contains
the hardware-decode flag exactly when `use_cuda` is set; and the codec
arguments are stream copy when `use_h265` is off, the software H.265
encoder with constant-quality preset and audio stream copy when
`use_h265` is on without `use_cuda`, and the hardware H.265 encoder
with audio stream copy when both are on. -/
theorem plan_cmd_shape (use_cuda use_h265 : Bool) (s e : Nat) (ip op : String)
    (hse : s < e) (hip : ip ≠ "-hwaccel") (hop : op ≠ "-hwaccel") :
    "-y" ∈ plan_cmd use_cuda use_h265 s e ip op ∧
      ["-ss", fmt3 s] <:+: plan_cmd use_cuda use_h265 s e ip op ∧
      ["-t", fmt3 (e - s)] <:+: plan_cmd use_cuda use_h265 s e ip op ∧
      ("-hwaccel" ∈ plan_cmd use_cuda use_h265 s e ip op ↔ use_cuda = true) ∧
      (use_h265 = false → ["-c", "copy"] <:+: plan_cmd use_cuda use_h265 s e ip op) ∧
      (use_h265 = true → use_cuda = false →
        ["-c:v", "libx265", "-crf", "23", "-preset", "medium", "-c:a", "copy"]
          <:+: plan_cmd use_cuda use_h265 s e ip op) ∧
      (use_h265 = true → use_cuda = true →
        ["-c:v", "hevc_nvenc", "-preset", "medium", "-c:a", "copy"]
          <:+: plan_cmd use_cuda use_h265 s e ip op) := by
  have hs := fmt3_ne_hwaccel s
  have hd := fmt3_ne_hwaccel (e - s)
  cases use_cuda <;> cases use_h265 <;>
    simp only [plan_cmd, ffmpeg_cmd, Bool.false_eq_true, if_true, if_false,
      Bool.true_eq_false, IsEmpty.forall_iff, forall_true_left, and_true, true_and] <;>
    refine ⟨by simp, ?_, ?_, ?_, ?_⟩ <;>
    first
    | exact ⟨["ffmpeg", "-y", "-hide_banner", "-loglevel", "info"], _, rfl⟩
    | exact ⟨["ffmpeg", "-y", "-hide_banner", "-loglevel", "info", "-hwaccel", "cuda"], _, rfl⟩
    | exact ⟨["ffmpeg", "-y", "-hide_banner", "-loglevel", "info", "-ss", fmt3 s], _, rfl⟩
    | exact ⟨["ffmpeg", "-y", "-hide_banner", "-loglevel", "info", "-hwaccel", "cuda", "-ss", fmt3 s], _, rfl⟩
    | exact ⟨["ffmpeg", "-y", "-hide_banner", "-loglevel", "info", "-ss", fmt3 s, "-t", fmt3 (e - s), "-i", ip], _, rfl⟩
    | exact ⟨["ffmpeg", "-y", "-hide_banner", "-loglevel", "info", "-hwaccel", "cuda", "-ss", fmt3 s, "-t", fmt3 (e - s), "-i", ip], _, rfl⟩
    | (constructor <;> intro h <;> simp_all [eq_comm])

/-- Witness for `plan_cmd_shape`: the stream-copy command for the range
`[1000 ms, 3500 ms)` of `in.mp4`, checked concretely: `-y` present, the
seek/duration pairs formatted as `1.000` and `2.500`, no hardware flag,
and `-c copy` selected. -/
theorem plan_cmd_shape_witness :
    "-y" ∈ plan_cmd false false 1000 3500 "in.mp4" "out.mp4" ∧
      ["-ss", "1.000"] <:+: plan_cmd false false 1000 3500 "in.mp4" "out.mp4" ∧
      ["-t", "2.500"] <:+: plan_cmd false false 1000 3500 "in.mp4" "out.mp4" ∧
      ¬ "-hwaccel" ∈ plan_cmd false false 1000 3500 "in.mp4" "out.mp4" ∧
      ["-c", "copy"] <:+: plan_cmd false false 1000 3500 "in.mp4" "out.mp4" := by
  have h := plan_cmd_shape false false 1000 3500 "in.mp4" "out.mp4"
    (by norm_num) (by decide) (by decide)
  have h1 : fmt3 1000 = "1.000" := rfl
  have h2 : fmt3 (3500 - 1000) = "2.500" := rfl
  refine ⟨h.1, ?_, ?_, ?_, h.2.2.2.2.1 rfl⟩
  · have := h.2.1; rwa [h1] at this
  · have := h.2.2.1; rwa [h2] at this
  · intro hm
    have := h.2.2.2.1.mp hm
    exact Bool.noConfusion this

/-- Helper: the coordinator's loop index never decreases along an
execution. -/
theorem BExec.next_mono {total : Nat} {st0 st : BatchSt} {tr : List BEvent}
    (h : BExec total st0 tr st) : st0.next ≤ st.next := by
  induction h with
  | nil => exact Nat.le_refl _
  | cons hstep _ ih =>
    cases hstep with
    | launch _ => exact Nat.le_trans (Nat.le_succ _) ih
    | finish _ _ => exact ih

/-- Helper: executions compose with a final step. -/
theorem BExec.snoc {total : Nat} {st0 st st' : BatchSt} {tr : List BEvent}
    {e : BEvent} (h : BExec total st0 tr st) (hstep : BStep total st e st') :
    BExec total st0 (tr ++ [e]) st' := by
  induction h with
  | nil => exact BExec.cons hstep BExec.nil
  | cons hstep' _ ih => exact BExec.cons hstep' (ih hstep)

/-- Helper: prepending the next index to a consecutive index range. -/
theorem range'_cons_of_le {n m : Nat} (h : n + 1 ≤ m) :
    n :: List.range' (n + 1) (m - (n + 1)) = List.range' n (m - n) := by
  have hm : m - n = (m - (n + 1)) + 1 := by omega
  rw [hm, List.range'_succ]

/-- Helper: the launch events of any execution are exactly the
consecutive job indices from the starting loop position, in order. -/
theorem BExec.launches_eq {total : Nat} {st0 st : BatchSt} {tr : List BEvent}
    (h : BExec total st0 tr st) :
    launches tr = List.range' st0.next (st.next - st0.next) := by
  induction h with
  | nil => simp [launches]
  | cons hstep htail ih =>
    cases hstep with
    | launch hlt =>
      simp only [launches, List.filterMap_cons] at ih ⊢
      rw [ih]
      exact range'_cons_of_le (by simpa using BExec.next_mono htail)
    | finish ok hmem =>
      simp only [launches, List.filterMap_cons] at ih ⊢
      exact ih

/-- C4 counterexample: the batch export is not sequential.  For a batch
of two jobs, the trace that launches job 0, launches job 1, and only
then sees the two processes finish is a legal execution of the code's
loop (no step of `export_segments` or `_run_ffmpeg_with_progress` waits
for an exit); in it job 1 is launched as the second event, before any
terminal event of job 0 — refuting the claim that job N's process
reaches its terminal state before job N+1's process starts. -/
theorem batch_not_sequential_cex :
    BExec 2 BatchSt.init
        [BEvent.launch 0, BEvent.launch 1, BEvent.finish 0 true, BEvent.finish 1 true]
        { next := 2, running := [], done := [1, 0] } ∧
      List.take 2 [BEvent.launch 0, BEvent.launch 1, BEvent.finish 0 true, BEvent.finish 1 true]
        = [BEvent.launch 0, BEvent.launch 1] := by
  refine ⟨?_, rfl⟩
  exact BExec.cons (BStep.launch (by decide))
    (BExec.cons (BStep.launch (by decide))
      (BExec.cons (BStep.finish true (by decide))
        (BExec.cons (BStep.finish true (by decide)) BExec.nil)))

/-- C4 (amended): the batch launches jobs strictly in the order given,
and a job's failure never prevents a later job from being launched —
but launching does not wait for earlier jobs to finish, so the external
processes of distinct jobs may run concurrently.  Formally: in every
execution from the initial state the launch events are exactly
`0, 1, 2, …` in order; and from any reachable state with jobs left the
coordinator can always launch the next job, whatever finishes (failures
included) occurred before. -/
theorem batch_launch_order (total : Nat) :
    (∀ (st : BatchSt) (tr : List BEvent), BExec total BatchSt.init tr st →
        launches tr = List.range' 0 st.next) ∧
      (∀ (st : BatchSt) (tr : List BEvent), BExec total BatchSt.init tr st →
        st.next < total →
        BExec total BatchSt.init (tr ++ [BEvent.launch st.next])
          { next := st.next + 1, running := st.running ++ [st.next], done := st.done }) := by
  constructor
  · intro st tr h
    have := BExec.launches_eq h
    simpa using this
  · intro st tr h hlt
    exact BExec.snoc h (BStep.launch hlt)

/-- Witness for `batch_launch_order`: applied to the concrete
three-job execution in which job 1 fails; its launches are `[0, 1, 2]`
in order, and job 2's launch is indeed the step that follows job 1's
failure. -/
theorem batch_launch_order_witness :
    launches [BEvent.launch 0, BEvent.finish 0 true, BEvent.launch 1,
        BEvent.finish 1 false, BEvent.launch 2]
      = List.range' 0 ({ next := 3, running := [2], done := [1, 0] } : BatchSt).next := by
  have hexec : BExec 3 BatchSt.init
      [BEvent.launch 0, BEvent.finish 0 true, BEvent.launch 1, BEvent.finish 1 false]
      { next := 2, running := [], done := [1, 0] } :=
    BExec.cons (BStep.launch (by decide))
      (BExec.cons (BStep.finish true (by decide))
        (BExec.cons (BStep.launch (by decide))
          (BExec.cons (BStep.finish false (by decide)) BExec.nil)))
  have h2 := (batch_launch_order 3).2 _ _ hexec (by decide)
  exact (batch_launch_order 3).1 _ _ h2

end VideoCutter
